import Mathlib

/-!
Verification of the invite-tracker core:
a shallow embedding of `src/database.py` (class `InviteDatabase`, three
SQLite tables modelled as association lists) and of
`src/invite_tracker.py` (class `InviteTracker`, restricted to the state
of one guild: its in-memory invite cache plus the shared store).

Conventions of the embedding:
* SQL tables are association lists `List (key × row)`; the schema's
  PRIMARY KEY constraints mean real states have unique keys, but the
  definitions are faithful row-by-row translations of the SQL statements
  (`INSERT OR IGNORE` = append when no key matches; `INSERT OR REPLACE` =
  delete matching rows then append; `UPDATE ... WHERE` = map over
  matching rows) and most lemmas need no uniqueness assumption because
  `SELECT`/`fetchone` is `List.find?`.
* Python dicts (the invite cache, `invite_counts`) are association lists
  in insertion order: assignment overwrites in place or appends at the
  end, matching dict semantics.
* `datetime.now().strftime("%Y-%m-%d")` dates are strings, compared
  lexicographically exactly as SQLite compares TEXT; the current day and
  the computed cutoff day are passed as parameters.
* Discord ids are `Int`; a missing inviter is `none`, and the code's
  `invite.inviter.id if invite.inviter else 0` is `Option.getD 0`.
* Each handler's `try/except sqlite3.Error` is modelled on the success
  path; the read queries keep an explicit `dbErr` flag because the spec
  claims concern their error results.
-/

/-- First row whose key equals `k` (SQL `SELECT ... WHERE key = k` with
`fetchone`), defaulting to `d`. -/
def lookupD {κ β : Type} [DecidableEq κ] (l : List (κ × β)) (k : κ) (d : β) : β :=
  ((l.find? (fun r => decide (r.1 = k))).map (fun r => r.2)).getD d

/-- SQL `INSERT OR IGNORE`: append the row unless a row with the key exists. -/
def insertOrIgnore {κ β : Type} [DecidableEq κ] (k : κ) (v : β) (l : List (κ × β)) :
    List (κ × β) :=
  if l.any (fun r => decide (r.1 = k)) then l else l ++ [(k, v)]

/-- SQL `UPDATE ... SET ... WHERE p(key)`: rewrite every matching row. -/
def updateWhere {κ β : Type} (p : κ → Bool) (f : β → β) (l : List (κ × β)) :
    List (κ × β) :=
  l.map (fun r => if p r.1 then (r.1, f r.2) else r)

/-- SQL `INSERT OR REPLACE`: delete rows with the key, insert the new row
(unnamed columns get their schema defaults). -/
def insertOrReplace {κ β : Type} [DecidableEq κ] (k : κ) (v : β) (l : List (κ × β)) :
    List (κ × β) :=
  l.filter (fun r => !decide (r.1 = k)) ++ [(k, v)]

/-- Row of the `invites` table (`created_at`/`last_updated` timestamps are
not observed by any query and are omitted). -/
structure InviteRow where
  guild_id : Int
  inviter_id : Int
  uses : Nat
  max_uses : Nat
  expires_at : Option Int
  is_active : Bool
deriving Repr, DecidableEq

/-- Row of the `invite_stats` table (key `(user_id, guild_id)` kept outside). -/
structure StatsRow where
  total_invites : Nat
  total_uses : Nat
deriving Repr, DecidableEq

/-- The whole SQLite store of `src/database.py`:
`invites` keyed by `invite_code`, `invite_stats` keyed by
`(user_id, guild_id)`, `daily_stats` keyed by `(user_id, guild_id, date)`
with the `invites_used` counter as value. -/
structure DB where
  invites : List (String × InviteRow)
  invite_stats : List ((Int × Int) × StatsRow)
  daily_stats : List ((Int × Int × String) × Nat)
deriving Repr, DecidableEq

/-- `InviteDatabase.add_invite`: `INSERT OR REPLACE INTO invites
(invite_code, guild_id, inviter_id, max_uses, expires_at)`; the unnamed
columns `uses` and `is_active` take their defaults `0` and `TRUE`. -/
def add_invite (invite_code : String) (guild_id inviter_id : Int)
    (max_uses : Nat) (expires_at : Option Int) (db : DB) : DB :=
  let row : InviteRow :=
    { guild_id := guild_id, inviter_id := inviter_id, uses := 0,
      max_uses := max_uses, expires_at := expires_at, is_active := true }
  { db with invites := insertOrReplace invite_code row db.invites }

/-- `InviteDatabase.update_invite_usage`: `UPDATE invites SET uses = ?
WHERE invite_code = ?`. -/
def update_invite_usage (invite_code : String) (new_uses : Nat) (db : DB) : DB :=
  let inv := updateWhere (fun c => decide (c = invite_code))
    (fun r => { r with uses := new_uses }) db.invites
  { db with invites := inv }

/-- `InviteDatabase.remove_invite`: `UPDATE invites SET is_active = FALSE
WHERE invite_code = ?`. -/
def remove_invite (invite_code : String) (db : DB) : DB :=
  let inv := updateWhere (fun c => decide (c = invite_code))
    (fun r => { r with is_active := false }) db.invites
  { db with invites := inv }

/-- `InviteDatabase.record_invite_use`: inside one transaction,
`INSERT OR IGNORE` a zero `invite_stats` row, `UPDATE total_uses + 1`,
`INSERT OR IGNORE` a zero `daily_stats` row for `today`, `UPDATE
invites_used + 1`. -/
def record_invite_use (guild_id inviter_id : Int) (today : String) (db : DB) : DB :=
  let zero : StatsRow := { total_invites := 0, total_uses := 0 }
  let s := insertOrIgnore (inviter_id, guild_id) zero db.invite_stats
  let s := updateWhere (fun k => decide (k = (inviter_id, guild_id)))
    (fun r => { r with total_uses := r.total_uses + 1 }) s
  let d := insertOrIgnore (inviter_id, guild_id, today) 0 db.daily_stats
  let d := updateWhere (fun k => decide (k = (inviter_id, guild_id, today)))
    (fun n => n + 1) d
  { db with invite_stats := s, daily_stats := d }

/-- `InviteDatabase.update_invite_count`: `INSERT OR IGNORE` a zero row,
then `UPDATE invite_stats SET total_invites = ?`. -/
def update_invite_count (guild_id user_id : Int) (invite_count : Nat) (db : DB) : DB :=
  let zero : StatsRow := { total_invites := 0, total_uses := 0 }
  let s := insertOrIgnore (user_id, guild_id) zero db.invite_stats
  let s := updateWhere (fun k => decide (k = (user_id, guild_id)))
    (fun r => { r with total_invites := invite_count }) s
  { db with invite_stats := s }

/-- `InviteDatabase.get_user_stats`: `SELECT total_invites, total_uses ...
fetchone`, `(0, 0)` when no row; on `sqlite3.Error` the handler returns
`(0, 0)`. -/
def get_user_stats (dbErr : Bool) (guild_id user_id : Int) (db : DB) : Nat × Nat :=
  if dbErr then (0, 0)
  else
    match db.invite_stats.find? (fun r => decide (r.1 = (user_id, guild_id))) with
    | some r => (r.2.total_invites, r.2.total_uses)
    | none => (0, 0)

/-- `ORDER BY total_uses DESC, total_invites DESC` on rows
`(user_id, total_invites, total_uses)`. -/
def lbGE (a b : Int × Nat × Nat) : Prop :=
  b.2.2 < a.2.2 ∨ (a.2.2 = b.2.2 ∧ b.2.1 ≤ a.2.1)

instance : DecidableRel lbGE := fun _ _ => by unfold lbGE; infer_instance

/-- `ORDER BY recent_uses DESC` on rows `(user_id, recent_uses)`. -/
def dailyGE (a b : Int × Nat) : Prop :=
  b.2 ≤ a.2

instance : DecidableRel dailyGE := fun _ _ => by unfold dailyGE; infer_instance

instance : IsTotal (Int × Nat) dailyGE :=
  ⟨fun a b => (Nat.le_total b.2 a.2).elim Or.inl Or.inr⟩

instance : IsTrans (Int × Nat) dailyGE :=
  ⟨fun _ _ _ hab hbc => Nat.le_trans hbc hab⟩

/-- `InviteDatabase.get_leaderboard`: `SELECT user_id, total_invites,
total_uses FROM invite_stats WHERE guild_id = ? ORDER BY total_uses DESC,
total_invites DESC LIMIT ?`; `[]` on `sqlite3.Error`. -/
def get_leaderboard (dbErr : Bool) (guild_id : Int) (limit : Nat) (db : DB) :
    List (Int × Nat × Nat) :=
  if dbErr then []
  else
    let rows := (db.invite_stats.filter (fun r => decide (r.1.2 = guild_id))).map
      (fun r => (r.1.1, r.2.total_invites, r.2.total_uses))
    (List.insertionSort lbGE rows).take limit

/-- The `WHERE guild_id = ? AND date >= ?` clause of
`get_daily_leaderboard`; SQLite's `date >= cutoff` on TEXT columns is the
lexicographic `¬ date < cutoff`, written on the character lists (Lean's
`String` order is by definition the order of `String.data`). -/
def dailyRows (db : DB) (guild_id : Int) (cutoff : String) :
    List ((Int × Int × String) × Nat) :=
  db.daily_stats.filter
    (fun r => decide (r.1.2.1 = guild_id) && !decide (r.1.2.2.data < cutoff.data))

/-- One selected row's `SUM(invites_used)` per user: the `GROUP BY
user_id` aggregate. -/
def dailySum (db : DB) (guild_id : Int) (cutoff : String) (u : Int) : Nat :=
  (((dailyRows db guild_id cutoff).filter (fun r => decide (r.1.1 = u))).map
    (fun r => r.2)).sum

/-- `GROUP BY user_id`: one `(user, SUM(invites_used))` row per distinct
user among the selected rows. -/
def dailyGroups (db : DB) (guild_id : Int) (cutoff : String) : List (Int × Nat) :=
  (((dailyRows db guild_id cutoff).map (fun r => r.1.1)).dedup).map
    (fun u => (u, dailySum db guild_id cutoff u))

/-- `InviteDatabase.get_daily_leaderboard`: `SELECT user_id,
SUM(invites_used) FROM daily_stats WHERE guild_id = ? AND date >= ?
GROUP BY user_id ORDER BY recent_uses DESC LIMIT ?`, where the cutoff
parameter is `(now - timedelta(days)).strftime("%Y-%m-%d")`. `[]` on
`sqlite3.Error`. -/
def get_daily_leaderboard (dbErr : Bool) (guild_id : Int) (cutoff : String)
    (limit : Nat) (db : DB) : List (Int × Nat) :=
  if dbErr then []
  else (List.insertionSort dailyGE (dailyGroups db guild_id cutoff)).take limit

/-- The all-zero `invite_stats` row, the schema defaults. -/
def zeroStats : StatsRow :=
  { total_invites := 0, total_uses := 0 }

/-- Observable: a user's `total_uses` cell as `get_user_stats` reads it. -/
def getTotalUses (db : DB) (guild_id user_id : Int) : Nat :=
  (lookupD db.invite_stats (user_id, guild_id) zeroStats).total_uses

/-- Observable: a user's `total_invites` cell as `get_user_stats` reads it. -/
def getTotalInvites (db : DB) (guild_id user_id : Int) : Nat :=
  (lookupD db.invite_stats (user_id, guild_id) zeroStats).total_invites

/-- Observable: a user's `invites_used` counter for one day. -/
def getDailyCount (db : DB) (guild_id user_id : Int) (day : String) : Nat :=
  lookupD db.daily_stats (user_id, guild_id, day) 0

/-- Observable: the stored row of one invite code. -/
def getInviteRow (db : DB) (invite_code : String) : Option InviteRow :=
  (db.invites.find? (fun r => decide (r.1 = invite_code))).map (fun r => r.2)

/-- The slice of `discord.Invite` the tracker reads: `code`, `inviter`
(optional user, projected to its id), `uses`, `max_uses` (discord.py uses
`0` for unlimited), `expires_at`. -/
structure Invite where
  code : String
  inviter : Option Int
  uses : Nat
  max_uses : Nat
  expires_at : Option Int
deriving Repr, DecidableEq

/-- `InviteTracker` state restricted to one guild: the guild's entry of
`self.invite_cache` (`none` when `guild.id not in self.invite_cache`; a
Python dict in insertion order otherwise) and the shared store. -/
structure TrackerState where
  cache : Option (List (String × Invite))
  db : DB
deriving Repr, DecidableEq

/-- Python dict assignment `d[code] = inv`: overwrite in place, else append. -/
def dictInsert (code : String) (inv : Invite) :
    List (String × Invite) → List (String × Invite)
  | [] => [(code, inv)]
  | e :: rest =>
    if e.1 = code then (code, inv) :: rest else e :: dictInsert code inv rest

/-- Python `del d[code]` guarded by `if code in d`. -/
def dictRemove (code : String) (l : List (String × Invite)) :
    List (String × Invite) :=
  l.filter (fun e => !decide (e.1 = code))

/-- Lookup in the dict comprehension `{invite.code: invite for invite in
current_invites}`: with duplicate codes the later entry wins, hence the
last matching element of the list. -/
def freshFind (fresh : List Invite) (code : String) : Option Invite :=
  fresh.reverse.find? (fun i => decide (i.code = code))

/-- One iteration of the `for invite in invites` loop body of
`InviteTracker.cache_invites`: dict insert, `db.add_invite` (inviter id
`invite.inviter.id if invite.inviter else 0`), `db.update_invite_usage`. -/
def cacheStep (guild_id : Int) (st : TrackerState) (inv : Invite) : TrackerState :=
  { cache := some (dictInsert inv.code inv (st.cache.getD [])),
    db := update_invite_usage inv.code inv.uses
      (add_invite inv.code guild_id (inv.inviter.getD 0) inv.max_uses inv.expires_at
        st.db) }

/-- `InviteTracker.cache_invites`: permission-gated; resets the guild's
cache entry to `{}` then folds the loop body over the freshly fetched
invite list. -/
def cache_invites (guild_id : Int) (perm : Bool) (fresh : List Invite)
    (st : TrackerState) : TrackerState :=
  if perm then fresh.foldl (cacheStep guild_id) { st with cache := some [] }
  else st

/-- The dict `cache_invites` leaves in `self.invite_cache[guild.id]`. -/
def buildDict (fresh : List Invite) : List (String × Invite) :=
  fresh.foldl (fun acc i => dictInsert i.code i acc) []

/-- Python `invite_counts[id] = invite_counts.get(id, 0) + 1`: bump in
place, or append `(u, 1)` for a new key. -/
def bumpCount (u : Int) : List (Int × Nat) → List (Int × Nat)
  | [] => [(u, 1)]
  | e :: rest =>
    if e.1 = u then (e.1, e.2 + 1) :: rest else e :: bumpCount u rest

/-- The body of the `for invite in cache.values()` counting loop:
`if invite.inviter: invite_counts[id] = invite_counts.get(id, 0) + 1`. -/
def countStep (acc : List (Int × Nat)) (e : String × Invite) : List (Int × Nat) :=
  match e.2.inviter with
  | some u => bumpCount u acc
  | none => acc

/-- The `invite_counts` dict of `InviteTracker.update_invite_counts`:
count cached invites per inviter, skipping invites with no inviter. -/
def inviteCounts (entries : List (String × Invite)) : List (Int × Nat) :=
  entries.foldl countStep []

/-- The `for user_id, count in invite_counts.items()` loop: one
`db.update_invite_count` per entry. -/
def applyCounts (guild_id : Int) (counts : List (Int × Nat)) (db : DB) : DB :=
  counts.foldl (fun d p => update_invite_count guild_id p.1 p.2 d) db

/-- `InviteTracker.update_invite_counts`: if the guild is uncached,
delegate to `cache_invites` and return; otherwise write every entry of
the freshly computed `invite_counts` dict to the store. -/
def update_invite_counts (guild_id : Int) (perm : Bool) (fresh : List Invite)
    (st : TrackerState) : TrackerState :=
  match st.cache with
  | none => cache_invites guild_id perm fresh st
  | some entries => { st with db := applyCounts guild_id (inviteCounts entries) st.db }

/-- `InviteTracker.on_invite_create`: ensure the guild's cache dict
exists, insert the invite, `db.add_invite`, then `update_invite_counts`. -/
def on_invite_create (guild_id : Int) (inv : Invite) (perm : Bool)
    (fresh : List Invite) (st : TrackerState) : TrackerState :=
  update_invite_counts guild_id perm fresh
    { cache := some (dictInsert inv.code inv (st.cache.getD [])),
      db := add_invite inv.code guild_id (inv.inviter.getD 0) inv.max_uses
        inv.expires_at st.db }

/-- `InviteTracker.on_invite_delete`: drop the code from the cache when
present, `db.remove_invite`, then `update_invite_counts`. -/
def on_invite_delete (guild_id : Int) (code : String) (perm : Bool)
    (fresh : List Invite) (st : TrackerState) : TrackerState :=
  let cache' := match st.cache with
    | some entries => some (dictRemove code entries)
    | none => none
  update_invite_counts guild_id perm fresh
    { cache := cache', db := remove_invite code st.db }

/-- The credit guard of `on_member_join`: `inviter_id = old.inviter.id if
old.inviter else 0; if inviter_id: record_invite_use`. -/
def creditIf (guild_id : Int) (inviter : Option Int) (today : String) (db : DB) : DB :=
  let inviter_id := inviter.getD 0
  if inviter_id ≠ 0 then record_invite_use guild_id inviter_id today db else db

/-- The `for code, old_invite in self.invite_cache[guild.id].items()` loop
of `on_member_join`. `entries` is the remaining iteration, `cache` the
dict being mutated (both start as the guild's cached dict):
* code present in the fresh dict with strictly larger `uses` → credit,
  overwrite the cache entry, store the new `uses`, break;
* code absent and cached `max_uses == 1` → credit, delete the cache
  entry, break;
* otherwise continue. -/
def scanInvites (guild_id : Int) (today : String) (fresh : List Invite)
    (entries cache : List (String × Invite)) (db : DB) :
    List (String × Invite) × DB :=
  match entries with
  | [] => (cache, db)
  | (code, old) :: rest =>
    match freshFind fresh code with
    | some cur =>
      if old.uses < cur.uses then
        (dictInsert code cur cache,
         update_invite_usage code cur.uses (creditIf guild_id old.inviter today db))
      else scanInvites guild_id today fresh rest cache db
    | none =>
      if old.max_uses = 1 then
        (dictRemove code cache, creditIf guild_id old.inviter today db)
      else scanInvites guild_id today fresh rest cache db

/-- `InviteTracker.on_member_join`: permission check, fetch the fresh
invite list, run the comparison loop when the guild is cached, and always
finish with `cache_invites` (both fetches are modelled as returning the
same fresh list). -/
def on_member_join (guild_id : Int) (perm : Bool) (fresh : List Invite)
    (today : String) (st : TrackerState) : TrackerState :=
  if perm then
    match st.cache with
    | some entries =>
      let r := scanInvites guild_id today fresh entries entries st.db
      cache_invites guild_id perm fresh { cache := some r.1, db := r.2 }
    | none => cache_invites guild_id perm fresh st
  else st

/-- `InviteTracker.get_invite_stats`: pass-through to
`db.get_user_stats`. -/
def get_invite_stats (dbErr : Bool) (guild_id user_id : Int) (st : TrackerState) :
    Nat × Nat :=
  get_user_stats dbErr guild_id user_id st.db

theorem lookupD_nil {κ β : Type} [DecidableEq κ] (k : κ) (d : β) :
    lookupD ([] : List (κ × β)) k d = d := rfl

theorem lookupD_cons {κ β : Type} [DecidableEq κ] (a : κ × β) (l : List (κ × β))
    (k : κ) (d : β) :
    lookupD (a :: l) k d = if a.1 = k then a.2 else lookupD l k d := by
  by_cases h : a.1 = k <;>
    simp [lookupD, List.find?_cons, h]

theorem insertOrIgnore_cons_hit {κ β : Type} [DecidableEq κ] {a : κ × β} {k : κ}
    (h : a.1 = k) (v : β) (l : List (κ × β)) :
    insertOrIgnore k v (a :: l) = a :: l := by
  simp [insertOrIgnore, List.any_cons, h]

theorem insertOrIgnore_cons_miss {κ β : Type} [DecidableEq κ] {a : κ × β} {k : κ}
    (h : ¬ a.1 = k) (v : β) (l : List (κ × β)) :
    insertOrIgnore k v (a :: l) = a :: insertOrIgnore k v l := by
  by_cases h2 : l.any (fun r => decide (r.1 = k)) <;>
    simp [insertOrIgnore, List.any_cons, h, h2]

theorem updateWhere_cons {κ β : Type} (p : κ → Bool) (f : β → β) (a : κ × β)
    (l : List (κ × β)) :
    updateWhere p f (a :: l) =
      (if p a.1 then (a.1, f a.2) else a) :: updateWhere p f l := by
  simp [updateWhere]

/-- Effect of `INSERT OR IGNORE` followed by `UPDATE ... WHERE key = k` on
the cell read back at `k`: the update function applied to the old cell,
or to the freshly inserted value when no row existed. -/
theorem lookupD_update_insert {κ β : Type} [DecidableEq κ] (k : κ) (v d : β)
    (f : β → β) :
    ∀ l : List (κ × β),
      lookupD (updateWhere (fun x => decide (x = k)) f (insertOrIgnore k v l)) k d
        = f (lookupD l k v)
  | [] => by
    simp [insertOrIgnore, updateWhere, lookupD]
  | a :: l => by
    by_cases h : a.1 = k
    · rw [insertOrIgnore_cons_hit h, updateWhere_cons]
      simp [lookupD_cons, h]
    · rw [insertOrIgnore_cons_miss h, updateWhere_cons]
      have hd : (decide (a.1 = k)) = false := by simp [h]
      rw [hd]
      simp only [Bool.false_eq_true, if_false]
      rw [lookupD_cons, lookupD_cons, lookupD_update_insert k v d f l]
      simp [h]

/-- `UPDATE ... WHERE key = k` leaves reads at other keys unchanged. -/
theorem lookupD_updateWhere_ne {κ β : Type} [DecidableEq κ] {k k' : κ}
    (hne : ¬ k' = k) (f : β → β) (d : β) :
    ∀ l : List (κ × β),
      lookupD (updateWhere (fun x => decide (x = k)) f l) k' d = lookupD l k' d
  | [] => rfl
  | a :: l => by
    rw [updateWhere_cons]
    by_cases h : a.1 = k
    · have hd : (decide (a.1 = k)) = true := by simp [h]
      rw [hd]
      simp only [if_true]
      rw [lookupD_cons, lookupD_cons, lookupD_updateWhere_ne hne f d l]
      have h3 : ¬ a.1 = k' := fun hh => hne (hh.symm.trans h)
      simp [h3]
    · have hd : (decide (a.1 = k)) = false := by simp [h]
      rw [hd]
      simp only [Bool.false_eq_true, if_false]
      rw [lookupD_cons, lookupD_cons, lookupD_updateWhere_ne hne f d l]

/-- `INSERT OR IGNORE` at key `k` leaves reads at other keys unchanged. -/
theorem lookupD_insertOrIgnore_ne {κ β : Type} [DecidableEq κ] {k k' : κ}
    (hne : ¬ k' = k) (v d : β) :
    ∀ l : List (κ × β),
      lookupD (insertOrIgnore k v l) k' d = lookupD l k' d
  | [] => by
    have h2 : ¬ k = k' := fun h => hne h.symm
    simp [insertOrIgnore, lookupD_cons, h2]
  | a :: l => by
    by_cases h : a.1 = k
    · rw [insertOrIgnore_cons_hit h]
    · rw [insertOrIgnore_cons_miss h, lookupD_cons, lookupD_cons,
        lookupD_insertOrIgnore_ne hne v d l]

/-- Combined frame: the `INSERT OR IGNORE` + `UPDATE` pair at key `k` is
invisible at any other key. -/
theorem lookupD_update_insert_ne {κ β : Type} [DecidableEq κ] {k k' : κ}
    (hne : ¬ k' = k) (v d : β) (f : β → β) (l : List (κ × β)) :
    lookupD (updateWhere (fun x => decide (x = k)) f (insertOrIgnore k v l)) k' d
      = lookupD l k' d := by
  rw [lookupD_updateWhere_ne hne, lookupD_insertOrIgnore_ne hne]

/-- One `record_invite_use` call raises the credited user's `total_uses`
cell by exactly one, on any starting store. -/
theorem getTotalUses_record (db : DB) (g u : Int) (today : String) :
    getTotalUses (record_invite_use g u today db) g u = getTotalUses db g u + 1 := by
  simp only [getTotalUses, record_invite_use]
  rw [lookupD_update_insert]
  rfl

/-- One `record_invite_use` call raises that day's `invites_used` cell by
exactly one, on any starting store. -/
theorem getDailyCount_record (db : DB) (g u : Int) (today : String) :
    getDailyCount (record_invite_use g u today db) g u today
      = getDailyCount db g u today + 1 := by
  simp only [getDailyCount, record_invite_use]
  rw [lookupD_update_insert]

/-- `record_invite_use` never touches the `total_invites` cell. -/
theorem getTotalInvites_record (db : DB) (g u g' u' : Int) (today : String) :
    getTotalInvites (record_invite_use g u today db) g' u'
      = getTotalInvites db g' u' := by
  simp only [getTotalInvites, record_invite_use]
  by_cases h : (u', g') = ((u, g) : Int × Int)
  · rw [h, lookupD_update_insert]
    rfl
  · rw [lookupD_update_insert_ne h]

/-- A sequence of `record_invite_use` calls for `(u, g)` adds its length
to the `total_uses` cell. -/
theorem getTotalUses_record_fold (g u : Int) :
    ∀ (days : List String) (db : DB),
      getTotalUses (days.foldl (fun d day => record_invite_use g u day d) db) g u
        = getTotalUses db g u + days.length
  | [], db => rfl
  | day :: rest, db => by
    rw [List.foldl_cons, getTotalUses_record_fold g u rest, getTotalUses_record]
    simp [Nat.add_assoc, Nat.add_comm 1]

theorem update_invite_usage_invite_stats (c : String) (n : Nat) (db : DB) :
    (update_invite_usage c n db).invite_stats = db.invite_stats := rfl

theorem update_invite_usage_daily_stats (c : String) (n : Nat) (db : DB) :
    (update_invite_usage c n db).daily_stats = db.daily_stats := rfl

theorem add_invite_invite_stats (c : String) (g i : Int) (m : Nat)
    (e : Option Int) (db : DB) :
    (add_invite c g i m e db).invite_stats = db.invite_stats := rfl

theorem add_invite_daily_stats (c : String) (g i : Int) (m : Nat)
    (e : Option Int) (db : DB) :
    (add_invite c g i m e db).daily_stats = db.daily_stats := rfl

theorem remove_invite_invite_stats (c : String) (db : DB) :
    (remove_invite c db).invite_stats = db.invite_stats := rfl

theorem remove_invite_daily_stats (c : String) (db : DB) :
    (remove_invite c db).daily_stats = db.daily_stats := rfl

theorem record_invite_use_invites (g u : Int) (t : String) (db : DB) :
    (record_invite_use g u t db).invites = db.invites := rfl

/-- The `cache_invites` loop only writes the `invites` table: the
aggregate stats table is untouched. -/
theorem foldl_cacheStep_invite_stats (g : Int) :
    ∀ (fresh : List Invite) (st : TrackerState),
      (fresh.foldl (cacheStep g) st).db.invite_stats = st.db.invite_stats
  | [], _ => rfl
  | i :: rest, st => by
    rw [List.foldl_cons, foldl_cacheStep_invite_stats g rest]
    rfl

/-- The `cache_invites` loop leaves the daily stats table untouched. -/
theorem foldl_cacheStep_daily_stats (g : Int) :
    ∀ (fresh : List Invite) (st : TrackerState),
      (fresh.foldl (cacheStep g) st).db.daily_stats = st.db.daily_stats
  | [], _ => rfl
  | i :: rest, st => by
    rw [List.foldl_cons, foldl_cacheStep_daily_stats g rest]
    rfl

theorem cache_invites_invite_stats (g : Int) (perm : Bool) (fresh : List Invite)
    (st : TrackerState) :
    (cache_invites g perm fresh st).db.invite_stats = st.db.invite_stats := by
  cases perm <;> simp [cache_invites, foldl_cacheStep_invite_stats]

theorem cache_invites_daily_stats (g : Int) (perm : Bool) (fresh : List Invite)
    (st : TrackerState) :
    (cache_invites g perm fresh st).db.daily_stats = st.db.daily_stats := by
  cases perm <;> simp [cache_invites, foldl_cacheStep_daily_stats]

/-- The `cache_invites` loop builds exactly the dict of the fetched list. -/
theorem foldl_cacheStep_cache (g : Int) :
    ∀ (fresh : List Invite) (st : TrackerState) (m : List (String × Invite)),
      st.cache = some m →
      (fresh.foldl (cacheStep g) st).cache
        = some (fresh.foldl (fun acc i => dictInsert i.code i acc) m)
  | [], st, m, h => by simpa using h
  | i :: rest, st, m, h => by
    rw [List.foldl_cons, List.foldl_cons]
    exact foldl_cacheStep_cache g rest _ _ (by simp [cacheStep, h])

theorem cache_invites_cache (g : Int) (fresh : List Invite) (st : TrackerState) :
    (cache_invites g true fresh st).cache = some (buildDict fresh) := by
  simp only [cache_invites, if_true, buildDict]
  exact foldl_cacheStep_cache g fresh _ [] rfl

theorem getTotalUses_congr {db db' : DB} (h : db.invite_stats = db'.invite_stats)
    (g u : Int) : getTotalUses db g u = getTotalUses db' g u := by
  unfold getTotalUses
  rw [h]

theorem getDailyCount_congr {db db' : DB} (h : db.daily_stats = db'.daily_stats)
    (g u : Int) (day : String) : getDailyCount db g u day = getDailyCount db' g u day := by
  unfold getDailyCount
  rw [h]

/-- C1: every `record_invite_use` (`creditJoin`) call, from any store
state, raises the credited user's `total_uses_credited` by exactly 1 and
that day's `DailyUsage` count by exactly 1 (both produced by the one
state transformer, the transaction), and a sequence of `N` calls for the
same `(user, server)` ends with `total_uses_credited` equal to its
initial value plus `N`. -/
theorem record_invite_use_credits_each_call (db : DB) (g u : Int) (today : String)
    (days : List String) :
    getTotalUses (record_invite_use g u today db) g u = getTotalUses db g u + 1
    ∧ getDailyCount (record_invite_use g u today db) g u today
        = getDailyCount db g u today + 1
    ∧ getTotalUses (days.foldl (fun d day => record_invite_use g u day d) db) g u
        = getTotalUses db g u + days.length :=
  ⟨getTotalUses_record db g u today, getDailyCount_record db g u today,
    getTotalUses_record_fold g u days db⟩

/-- A cached entry that the `on_member_join` loop passes over without a
match: its code is in the fresh dict without a strict `uses` increase, or
it is absent and its cached `max_uses` is not 1. -/
def noMatch (fresh : List Invite) (e : String × Invite) : Bool :=
  match freshFind fresh e.1 with
  | some cur => !decide (e.2.uses < cur.uses)
  | none => !decide (e.2.max_uses = 1)

/-- The loop skips over a prefix of non-matching entries. -/
theorem scanInvites_skip (g : Int) (today : String) (fresh : List Invite) :
    ∀ (pre tail cache : List (String × Invite)) (db : DB),
      pre.all (noMatch fresh) = true →
      scanInvites g today fresh (pre ++ tail) cache db
        = scanInvites g today fresh tail cache db
  | [], _, _, _, _ => rfl
  | (c, o) :: pre, tail, cache, db, h => by
    rw [List.all_cons, Bool.and_eq_true] at h
    obtain ⟨h1, h2⟩ := h
    rw [List.cons_append]
    cases hf : freshFind fresh c with
    | some cur =>
      simp only [noMatch, hf] at h1
      simp only [Bool.not_eq_true', decide_eq_false_iff_not] at h1
      simp only [scanInvites, hf, h1, if_false]
      exact scanInvites_skip g today fresh pre tail cache db h2
    | none =>
      simp only [noMatch, hf] at h1
      simp only [Bool.not_eq_true', decide_eq_false_iff_not] at h1
      simp only [scanInvites, hf, h1, if_false]
      exact scanInvites_skip g today fresh pre tail cache db h2

/-- Loop step on the consumed invite, case (a): code still present with a
strictly larger use count. -/
theorem scanInvites_hit (g : Int) (today : String) (fresh : List Invite)
    (code : String) (old cur : Invite) (rest cache : List (String × Invite))
    (db : DB) (hf : freshFind fresh code = some cur) (hu : old.uses < cur.uses) :
    scanInvites g today fresh ((code, old) :: rest) cache db
      = (dictInsert code cur cache,
         update_invite_usage code cur.uses (creditIf g old.inviter today db)) := by
  simp only [scanInvites, hf, hu, if_true]

/-- Loop step on the consumed invite, case (b): code vanished and the
cached invite was single-use. -/
theorem scanInvites_gone (g : Int) (today : String) (fresh : List Invite)
    (code : String) (old : Invite) (rest cache : List (String × Invite))
    (db : DB) (hf : freshFind fresh code = none) (hm : old.max_uses = 1) :
    scanInvites g today fresh ((code, old) :: rest) cache db
      = (dictRemove code cache, creditIf g old.inviter today db) := by
  simp only [scanInvites, hf, hm, if_true]

/-- Shape of `on_member_join` when the guild is cached. -/
theorem on_member_join_cached (g : Int) (fresh : List Invite) (today : String)
    (st : TrackerState) (entries : List (String × Invite))
    (hc : st.cache = some entries) :
    on_member_join g true fresh today st
      = cache_invites g true fresh
          { cache := some (scanInvites g today fresh entries entries st.db).1,
            db := (scanInvites g today fresh entries entries st.db).2 } := by
  simp only [on_member_join, hc, if_true]

/-- Shape of `on_member_join` when the guild was never cached. -/
theorem on_member_join_uncached (g : Int) (fresh : List Invite) (today : String)
    (st : TrackerState) (hc : st.cache = none) :
    on_member_join g true fresh today st = cache_invites g true fresh st := by
  simp only [on_member_join, hc, if_true]

/-- C2: on a member join in a cached guild, when the first cached invite
that matches either loop condition is one whose code is still in the
fresh list with a strictly greater `uses` (entries before it match
neither condition), `on_member_join` credits the join to its inviter `u`
(non-null, hence with a real non-zero id) via `creditJoin`, overwrites
the cache entry with the fresh invite, stores the new `uses`, and scans
no further: the whole result is the final `cache_invites` resync applied
to exactly that intermediate state, independent of the remaining entries.
The credited user's aggregate and daily counters rise by exactly 1. -/
theorem on_member_join_first_increased (g : Int) (fresh : List Invite)
    (today : String) (st : TrackerState) (pre rest : List (String × Invite))
    (code : String) (old cur : Invite) (u : Int)
    (hc : st.cache = some (pre ++ (code, old) :: rest))
    (hpre : pre.all (noMatch fresh) = true)
    (hf : freshFind fresh code = some cur)
    (hu : old.uses < cur.uses)
    (hi : old.inviter = some u) (hu0 : u ≠ 0) :
    on_member_join g true fresh today st
      = cache_invites g true fresh
          { cache := some (dictInsert code cur (pre ++ (code, old) :: rest)),
            db := update_invite_usage code cur.uses
              (record_invite_use g u today st.db) }
    ∧ getTotalUses (on_member_join g true fresh today st).db g u
        = getTotalUses st.db g u + 1
    ∧ getDailyCount (on_member_join g true fresh today st).db g u today
        = getDailyCount st.db g u today + 1 := by
  have hcredit : creditIf g old.inviter today st.db
      = record_invite_use g u today st.db := by
    simp [creditIf, hi, hu0]
  have hscan : scanInvites g today fresh (pre ++ (code, old) :: rest)
      (pre ++ (code, old) :: rest) st.db
      = (dictInsert code cur (pre ++ (code, old) :: rest),
         update_invite_usage code cur.uses (record_invite_use g u today st.db)) := by
    rw [scanInvites_skip g today fresh pre _ _ _ hpre,
      scanInvites_hit g today fresh code old cur rest _ _ hf hu, hcredit]
  have heq := on_member_join_cached g fresh today st _ hc
  rw [hscan] at heq
  refine ⟨heq, ?_, ?_⟩
  · rw [heq, getTotalUses_congr (cache_invites_invite_stats g true fresh _) g u]
    exact getTotalUses_record st.db g u today
  · rw [heq, getDailyCount_congr (cache_invites_daily_stats g true fresh _) g u today]
    exact getDailyCount_record st.db g u today

/-- C3: on a member join in a cached guild, when the first matching
cached invite is one whose code is absent from the fresh list and whose
cached `max_uses` is 1, `on_member_join` credits the join to its present
inviter `u`, removes the invite from the cache, and scans no further:
the result is the final resync applied to that intermediate state. The
credited user's aggregate and daily counters rise by exactly 1. -/
theorem on_member_join_missing_single_use (g : Int) (fresh : List Invite)
    (today : String) (st : TrackerState) (pre rest : List (String × Invite))
    (code : String) (old : Invite) (u : Int)
    (hc : st.cache = some (pre ++ (code, old) :: rest))
    (hpre : pre.all (noMatch fresh) = true)
    (hf : freshFind fresh code = none)
    (hm : old.max_uses = 1)
    (hi : old.inviter = some u) (hu0 : u ≠ 0) :
    on_member_join g true fresh today st
      = cache_invites g true fresh
          { cache := some (dictRemove code (pre ++ (code, old) :: rest)),
            db := record_invite_use g u today st.db }
    ∧ getTotalUses (on_member_join g true fresh today st).db g u
        = getTotalUses st.db g u + 1
    ∧ getDailyCount (on_member_join g true fresh today st).db g u today
        = getDailyCount st.db g u today + 1 := by
  have hcredit : creditIf g old.inviter today st.db
      = record_invite_use g u today st.db := by
    simp [creditIf, hi, hu0]
  have hscan : scanInvites g today fresh (pre ++ (code, old) :: rest)
      (pre ++ (code, old) :: rest) st.db
      = (dictRemove code (pre ++ (code, old) :: rest),
         record_invite_use g u today st.db) := by
    rw [scanInvites_skip g today fresh pre _ _ _ hpre,
      scanInvites_gone g today fresh code old rest _ _ hf hm, hcredit]
  have heq := on_member_join_cached g fresh today st _ hc
  rw [hscan] at heq
  refine ⟨heq, ?_, ?_⟩
  · rw [heq, getTotalUses_congr (cache_invites_invite_stats g true fresh _) g u]
    exact getTotalUses_record st.db g u today
  · rw [heq, getDailyCount_congr (cache_invites_daily_stats g true fresh _) g u today]
    exact getDailyCount_record st.db g u today

/-- C6: on a member join in a cached guild, when no cached entry matches
either loop condition (no code present with increased `uses`, no missing
single-use invite), `on_member_join` credits nobody: the aggregate stats
table and the daily stats table are exactly as before. -/
theorem on_member_join_no_match (g : Int) (fresh : List Invite) (today : String)
    (st : TrackerState) (entries : List (String × Invite))
    (hc : st.cache = some entries)
    (hall : entries.all (noMatch fresh) = true) :
    (on_member_join g true fresh today st).db.invite_stats = st.db.invite_stats
    ∧ (on_member_join g true fresh today st).db.daily_stats = st.db.daily_stats := by
  have hscan : scanInvites g today fresh entries entries st.db
      = (entries, st.db) := by
    have h := scanInvites_skip g today fresh entries [] entries st.db hall
    rw [List.append_nil] at h
    rw [h]
    rfl
  have heq := on_member_join_cached g fresh today st _ hc
  rw [hscan] at heq
  constructor
  · rw [heq, cache_invites_invite_stats]
  · rw [heq, cache_invites_daily_stats]

/-- C10: on a member join in a guild with no cache entry, `on_member_join`
is exactly the final `cache_invites` call: nobody is credited (aggregate
and daily stats unchanged), and the effect is to populate the cache with
the fetched list (the store's invite metadata being upserted by that same
`cache_invites`). -/
theorem on_member_join_uncached_only_caches (g : Int) (fresh : List Invite)
    (today : String) (st : TrackerState) (hc : st.cache = none) :
    on_member_join g true fresh today st = cache_invites g true fresh st
    ∧ (on_member_join g true fresh today st).db.invite_stats = st.db.invite_stats
    ∧ (on_member_join g true fresh today st).db.daily_stats = st.db.daily_stats
    ∧ (on_member_join g true fresh today st).cache = some (buildDict fresh) := by
  have heq := on_member_join_uncached g fresh today st hc
  refine ⟨heq, ?_, ?_, ?_⟩
  · rw [heq, cache_invites_invite_stats]
  · rw [heq, cache_invites_daily_stats]
  · rw [heq, cache_invites_cache]

/-- Empty store, the state right after `init_database`. -/
def emptyDB : DB :=
  { invites := [], invite_stats := [], daily_stats := [] }

/-- Scenario A cached invite: `X`, inviter `7`, `uses = 2`. -/
def invX : Invite :=
  { code := "X", inviter := some 7, uses := 2, max_uses := 0, expires_at := none }

/-- Scenario A fresh invite: `X` with `uses = 3`. -/
def invXfresh : Invite :=
  { code := "X", inviter := some 7, uses := 3, max_uses := 0, expires_at := none }

/-- Scenario B cached single-use invite: `Y`, inviter `9`, `max_uses = 1`. -/
def invY : Invite :=
  { code := "Y", inviter := some 9, uses := 0, max_uses := 1, expires_at := none }

theorem on_member_join_first_increased_witness :
    on_member_join 1 true [invXfresh] "2026-10-12"
        { cache := some [("X", invX)], db := emptyDB }
      = cache_invites 1 true [invXfresh]
          { cache := some (dictInsert "X" invXfresh [("X", invX)]),
            db := update_invite_usage "X" invXfresh.uses
              (record_invite_use 1 7 "2026-10-12" emptyDB) }
    ∧ getTotalUses (on_member_join 1 true [invXfresh] "2026-10-12"
        { cache := some [("X", invX)], db := emptyDB }).db 1 7
        = getTotalUses emptyDB 1 7 + 1
    ∧ getDailyCount (on_member_join 1 true [invXfresh] "2026-10-12"
        { cache := some [("X", invX)], db := emptyDB }).db 1 7 "2026-10-12"
        = getDailyCount emptyDB 1 7 "2026-10-12" + 1 :=
  on_member_join_first_increased 1 [invXfresh] "2026-10-12"
    { cache := some [("X", invX)], db := emptyDB } [] [] "X" invX invXfresh 7
    rfl rfl rfl (by decide) rfl (by decide)

theorem on_member_join_missing_single_use_witness :
    on_member_join 1 true [] "2026-10-12"
        { cache := some [("Y", invY)], db := emptyDB }
      = cache_invites 1 true []
          { cache := some (dictRemove "Y" [("Y", invY)]),
            db := record_invite_use 1 9 "2026-10-12" emptyDB }
    ∧ getTotalUses (on_member_join 1 true [] "2026-10-12"
        { cache := some [("Y", invY)], db := emptyDB }).db 1 9
        = getTotalUses emptyDB 1 9 + 1
    ∧ getDailyCount (on_member_join 1 true [] "2026-10-12"
        { cache := some [("Y", invY)], db := emptyDB }).db 1 9 "2026-10-12"
        = getDailyCount emptyDB 1 9 "2026-10-12" + 1 :=
  on_member_join_missing_single_use 1 [] "2026-10-12"
    { cache := some [("Y", invY)], db := emptyDB } [] [] "Y" invY 9
    rfl rfl rfl rfl rfl (by decide)

theorem on_member_join_no_match_witness :
    (on_member_join 1 true [invX] "2026-10-12"
        { cache := some [("X", invX)], db := emptyDB }).db.invite_stats
      = emptyDB.invite_stats
    ∧ (on_member_join 1 true [invX] "2026-10-12"
        { cache := some [("X", invX)], db := emptyDB }).db.daily_stats
      = emptyDB.daily_stats :=
  on_member_join_no_match 1 [invX] "2026-10-12"
    { cache := some [("X", invX)], db := emptyDB } [("X", invX)]
    rfl (by decide)

theorem on_member_join_uncached_only_caches_witness :
    on_member_join 1 true [invX] "2026-10-12" { cache := none, db := emptyDB }
      = cache_invites 1 true [invX] { cache := none, db := emptyDB }
    ∧ (on_member_join 1 true [invX] "2026-10-12"
        { cache := none, db := emptyDB }).db.invite_stats = emptyDB.invite_stats
    ∧ (on_member_join 1 true [invX] "2026-10-12"
        { cache := none, db := emptyDB }).db.daily_stats = emptyDB.daily_stats
    ∧ (on_member_join 1 true [invX] "2026-10-12"
        { cache := none, db := emptyDB }).cache = some (buildDict [invX]) :=
  on_member_join_uncached_only_caches 1 [invX] "2026-10-12"
    { cache := none, db := emptyDB } rfl

/-- A stored row for code `"a"` with 5 recorded uses. -/
def rowA : InviteRow :=
  { guild_id := 1, inviter_id := 2, uses := 5, max_uses := 0,
    expires_at := none, is_active := true }

/-- Store holding only that row. -/
def dbA : DB :=
  { invites := [("a", rowA)], invite_stats := [], daily_stats := [] }

/-- C5 counterexample: `add_invite` for an existing code does NOT leave
the stored `uses` unchanged — `INSERT OR REPLACE` omits the `uses`
column, so the replacing row carries the schema default `0`: the stored
count drops from 5 to 0. -/
theorem add_invite_resets_uses_cex :
    (getInviteRow dbA "a").map (fun r => r.uses) = some 5
    ∧ (getInviteRow (add_invite "a" 1 2 0 none dbA) "a").map (fun r => r.uses)
        = some 0 := by
  decide

theorem find?_insertOrReplace {κ β : Type} [DecidableEq κ] (k : κ) (v : β)
    (l : List (κ × β)) :
    (insertOrReplace k v l).find? (fun r => decide (r.1 = k)) = some (k, v) := by
  unfold insertOrReplace
  rw [List.find?_append]
  have h1 : (l.filter (fun r => !decide (r.1 = k))).find?
      (fun r => decide (r.1 = k)) = none := by
    rw [List.find?_eq_none]
    intro x hx
    rw [List.mem_filter] at hx
    simpa using hx.2
  rw [h1]
  simp

/-- C5 amended: `add_invite` for a code replaces the whole stored row:
the metadata columns take the new values and the unnamed columns fall
back to their schema defaults, so `uses` becomes 0 and `is_active` true
regardless of the previous row. -/
theorem add_invite_replaces_row (db : DB) (code : String) (g i : Int) (m : Nat)
    (e : Option Int) :
    getInviteRow (add_invite code g i m e db) code
      = some { guild_id := g, inviter_id := i, uses := 0, max_uses := m,
               expires_at := e, is_active := true } := by
  unfold getInviteRow add_invite
  rw [find?_insertOrReplace]
  rfl

theorem updateWhere_idem {κ β : Type} (p : κ → Bool) (f : β → β)
    (hf : ∀ b, f (f b) = f b) :
    ∀ l : List (κ × β), updateWhere p f (updateWhere p f l) = updateWhere p f l
  | [] => rfl
  | a :: l => by
    rw [updateWhere_cons]
    by_cases h : p a.1
    · rw [if_pos h, updateWhere_cons, if_pos h, hf, updateWhere_idem p f hf l]
    · rw [if_neg h, updateWhere_cons, if_neg h, updateWhere_idem p f hf l]

/-- C9: `remove_invite` (`deactivateInvite`) is idempotent — running it
twice leaves the exact same store as running it once, on every store and
every code. -/
theorem remove_invite_idem (db : DB) (code : String) :
    remove_invite code (remove_invite code db) = remove_invite code db := by
  unfold remove_invite
  simp only []
  congr 1
  exact updateWhere_idem (fun c => decide (c = code))
    (fun r => { r with is_active := false }) (fun b => rfl) db.invites

/-- C7: the read queries degrade to neutral values — `get_user_stats`
returns `(0, 0)` whenever the pair has no stats row, `get_leaderboard`
returns `[]` whenever the guild has no stats row, and on a storage error
both return those same neutral results instead of propagating. -/
theorem get_user_stats_leaderboard_defaults (db : DB) (g u : Int) (limit : Nat) :
    (db.invite_stats.any (fun r => decide (r.1 = (u, g))) = false →
      get_user_stats false g u db = (0, 0))
    ∧ (db.invite_stats.any (fun r => decide (r.1.2 = g)) = false →
      get_leaderboard false g limit db = [])
    ∧ get_user_stats true g u db = (0, 0)
    ∧ get_leaderboard true g limit db = [] := by
  refine ⟨?_, ?_, rfl, rfl⟩
  · intro h
    rw [List.any_eq_false] at h
    unfold get_user_stats
    rw [List.find?_eq_none.mpr]
    · simp
    · intro x hx
      exact h x hx
  · intro h
    rw [List.any_eq_false] at h
    have hfil : db.invite_stats.filter (fun r => decide (r.1.2 = g)) = [] := by
      rw [List.filter_eq_nil_iff]
      intro x hx
      exact h x hx
    unfold get_leaderboard
    simp [hfil, List.insertionSort]

theorem get_user_stats_leaderboard_defaults_witness :
    get_user_stats false 1 2 emptyDB = (0, 0)
    ∧ get_leaderboard false 1 10 emptyDB = []
    ∧ get_user_stats true 1 2 emptyDB = (0, 0)
    ∧ get_leaderboard true 1 10 emptyDB = [] := by
  obtain ⟨h1, h2, h3, h4⟩ := get_user_stats_leaderboard_defaults emptyDB 1 2 10
  exact ⟨h1 rfl, h2 rfl, h3, h4⟩

/-- Store with one daily row dated 2026-12-31 (after any plausible
"today"), count 5, for user 1 in guild 1. -/
def dbFuture : DB :=
  { invites := [], invite_stats := [],
    daily_stats := [((1, 1, "2026-12-31"), 5)] }

/-- C8 counterexample: with today = `2026-10-12` the code computes the
cutoff `2026-10-05`, and the query `date >= cutoff` has no upper bound:
the row dated `2026-12-31` — strictly after today, hence outside the
claimed inclusive interval `[today - 7 days, today]` — is summed into the
result. -/
theorem daily_leaderboard_future_row_cex :
    get_daily_leaderboard false 1 "2026-10-05" 10 dbFuture = [(1, 5)]
    ∧ ("2026-10-12" : String) < "2026-12-31" := by
  constructor
  · rfl
  · rw [String.lt_iff_toList_lt]
    decide

/-- C8 amended: the daily leaderboard filters only by the lower bound
`date >= today - windowDays`, sums the matching `DailyUsage` counts
grouped by user (rows dated after today included as well), and returns
the groups ordered by that sum descending. -/
theorem daily_leaderboard_lower_bound (db : DB) (g : Int) (cutoff : String)
    (limit : Nat) :
    (∀ p ∈ get_daily_leaderboard false g cutoff limit db,
      p.2 = dailySum db g cutoff p.1)
    ∧ List.Pairwise dailyGE (get_daily_leaderboard false g cutoff limit db) := by
  have hform : get_daily_leaderboard false g cutoff limit db
      = (List.insertionSort dailyGE (dailyGroups db g cutoff)).take limit := rfl
  constructor
  · intro p hp
    rw [hform] at hp
    have hp1 : p ∈ List.insertionSort dailyGE (dailyGroups db g cutoff) :=
      List.take_subset _ _ hp
    have hp2 : p ∈ dailyGroups db g cutoff :=
      (List.perm_insertionSort dailyGE (dailyGroups db g cutoff)).mem_iff.mp hp1
    rw [dailyGroups, List.mem_map] at hp2
    obtain ⟨u, _, rfl⟩ := hp2
    rfl
  · rw [hform]
    exact List.Pairwise.sublist (List.take_sublist _ _)
      (List.sorted_insertionSort dailyGE (dailyGroups db g cutoff))

theorem daily_leaderboard_lower_bound_witness :
    ((1 : Int), (5 : Nat)) ∈ get_daily_leaderboard false 1 "2026-10-05" 10 dbFuture
    ∧ (5 : Nat) = dailySum dbFuture 1 "2026-10-05" 1
    ∧ List.Pairwise dailyGE (get_daily_leaderboard false 1 "2026-10-05" 10 dbFuture) := by
  obtain ⟨h1, h2⟩ := daily_leaderboard_lower_bound dbFuture 1 "2026-10-05" 10
  have hm : ((1 : Int), (5 : Nat)) ∈ get_daily_leaderboard false 1 "2026-10-05" 10 dbFuture := by
    rw [show get_daily_leaderboard false 1 "2026-10-05" 10 dbFuture = [(1, 5)] from rfl]
    exact List.mem_singleton.mpr rfl
  exact ⟨hm, h1 (1, 5) hm, h2⟩

/-- Value of a key in a Python counting dict, 0 when absent. -/
def lookupCount (l : List (Int × Nat)) (u : Int) : Nat :=
  lookupD l u 0

/-- Number of invites in a cache dict whose inviter is `u`. -/
def cachedCount (entries : List (String × Invite)) (u : Int) : Nat :=
  entries.countP (fun e => decide (e.2.inviter = some u))

theorem bumpCount_same (u : Int) :
    ∀ l : List (Int × Nat), lookupCount (bumpCount u l) u = lookupCount l u + 1
  | [] => by simp [bumpCount, lookupCount, lookupD_cons, lookupD_nil]
  | a :: l => by
    by_cases h : a.1 = u
    · simp [bumpCount, h, lookupCount, lookupD_cons]
    · simp only [bumpCount, h, if_false, ite_false, lookupCount, lookupD_cons]
      have ih := bumpCount_same u l
      simp only [lookupCount] at ih
      simp [h, ih]

theorem bumpCount_cons_hit {u : Int} {a : Int × Nat} (h : a.1 = u)
    (l : List (Int × Nat)) : bumpCount u (a :: l) = (a.1, a.2 + 1) :: l := by
  simp [bumpCount, h]

theorem bumpCount_cons_miss {u : Int} {a : Int × Nat} (h : ¬ a.1 = u)
    (l : List (Int × Nat)) : bumpCount u (a :: l) = a :: bumpCount u l := by
  simp [bumpCount, h]

theorem bumpCount_other {u u' : Int} (h : ¬ u' = u) :
    ∀ l : List (Int × Nat), lookupCount (bumpCount u l) u' = lookupCount l u'
  | [] => by
    have h2 : ¬ u = u' := fun hh => h hh.symm
    simp [bumpCount, lookupCount, lookupD_cons, lookupD_nil, h2]
  | a :: l => by
    by_cases ha : a.1 = u
    · rw [lookupCount, lookupCount, bumpCount_cons_hit ha, lookupD_cons, lookupD_cons]
      have h3 : ¬ a.1 = u' := fun hh => h (hh.symm.trans ha)
      rw [if_neg h3, if_neg h3]
    · rw [lookupCount, lookupCount, bumpCount_cons_miss ha, lookupD_cons, lookupD_cons]
      have ih := bumpCount_other h l
      rw [lookupCount, lookupCount] at ih
      by_cases hb : a.1 = u'
      · rw [if_pos hb, if_pos hb]
      · rw [if_neg hb, if_neg hb, ih]

theorem bumpCount_keys (u : Int) :
    ∀ l : List (Int × Nat),
      (bumpCount u l).map Prod.fst
        = if u ∈ l.map Prod.fst then l.map Prod.fst else l.map Prod.fst ++ [u]
  | [] => by simp [bumpCount]
  | a :: l => by
    by_cases h : a.1 = u
    · have hm : u ∈ (a :: l).map Prod.fst := by
        rw [List.map_cons, ← h]
        exact List.mem_cons_self _ _
      rw [bumpCount_cons_hit h, if_pos hm, List.map_cons, List.map_cons]
    · have hne : ¬ u = a.1 := fun hh => h hh.symm
      rw [bumpCount_cons_miss h, List.map_cons, List.map_cons, bumpCount_keys u l]
      by_cases hm : u ∈ l.map Prod.fst
      · have hm2 : u ∈ a.1 :: l.map Prod.fst := List.mem_cons_of_mem _ hm
        rw [if_pos hm, if_pos hm2]
      · have hm2 : u ∉ a.1 :: l.map Prod.fst := by
          rw [List.mem_cons]
          rintro (hh | hh)
          · exact hne hh
          · exact hm hh
        rw [if_neg hm, if_neg hm2, List.cons_append]

theorem bumpCount_nodup (u : Int) (l : List (Int × Nat))
    (h : (l.map Prod.fst).Nodup) : ((bumpCount u l).map Prod.fst).Nodup := by
  rw [bumpCount_keys]
  by_cases hm : u ∈ l.map Prod.fst
  · rwa [if_pos hm]
  · rw [if_neg hm, List.nodup_append]
    refine ⟨h, List.nodup_singleton u, ?_⟩
    intro a ha hb
    rw [List.mem_singleton] at hb
    exact hm (hb ▸ ha)

/-- Running the counting loop adds, for each user, the number of newly
scanned cache entries whose inviter is that user. -/
theorem foldl_countStep_lookup (u : Int) :
    ∀ (entries : List (String × Invite)) (acc : List (Int × Nat)),
      lookupCount (entries.foldl countStep acc) u
        = lookupCount acc u + cachedCount entries u
  | [], acc => by simp [cachedCount, lookupCount]
  | e :: entries, acc => by
    rw [List.foldl_cons, foldl_countStep_lookup u entries]
    unfold cachedCount
    rw [List.countP_cons]
    cases he : e.2.inviter with
    | none =>
      simp only [countStep, he]
      simp [cachedCount]
    | some v =>
      by_cases hv : v = u
      · subst hv
        simp only [countStep, he]
        rw [bumpCount_same]
        simp [cachedCount]
        omega
      · have hb := bumpCount_other (show ¬ u = v from fun hh => hv hh.symm) acc
        simp only [countStep, he]
        rw [hb]
        simp [cachedCount, hv]

theorem inviteCounts_lookup (entries : List (String × Invite)) (u : Int) :
    lookupCount (inviteCounts entries) u = cachedCount entries u := by
  rw [inviteCounts, foldl_countStep_lookup]
  simp [lookupCount, lookupD_nil]

theorem foldl_countStep_nodup :
    ∀ (entries : List (String × Invite)) (acc : List (Int × Nat)),
      (acc.map Prod.fst).Nodup →
      ((entries.foldl countStep acc).map Prod.fst).Nodup
  | [], _, h => h
  | e :: entries, acc, h => by
    rw [List.foldl_cons]
    apply foldl_countStep_nodup entries
    cases he : e.2.inviter with
    | none => simpa [countStep, he] using h
    | some v =>
      simp only [countStep, he]
      exact bumpCount_nodup v acc h

theorem inviteCounts_nodup (entries : List (String × Invite)) :
    ((inviteCounts entries).map Prod.fst).Nodup :=
  foldl_countStep_nodup entries [] List.nodup_nil

theorem lookupCount_mem (l : List (Int × Nat)) (u : Int)
    (h : 0 < lookupCount l u) : (u, lookupCount l u) ∈ l := by
  unfold lookupCount lookupD at *
  cases hf : l.find? (fun r => decide (r.1 = u)) with
  | none => rw [hf] at h; simp at h
  | some r =>
    obtain ⟨r1, r2⟩ := r
    rw [hf] at h
    have hr := List.find?_some hf
    have hm := List.mem_of_find?_eq_some hf
    simp only [decide_eq_true_eq] at hr
    subst hr
    simpa using hm

/-- `update_invite_count` overwrites the user's `total_invites` cell
with the given snapshot count. -/
theorem getTotalInvites_set (db : DB) (g u : Int) (c : Nat) :
    getTotalInvites (update_invite_count g u c db) g u = c := by
  unfold getTotalInvites update_invite_count
  rw [lookupD_update_insert]

/-- `update_invite_count` for one user leaves other users' cells alone. -/
theorem getTotalInvites_set_ne (db : DB) (g : Int) {u u' : Int}
    (h : ¬ u' = u) (c : Nat) :
    getTotalInvites (update_invite_count g u c db) g u'
      = getTotalInvites db g u' := by
  unfold getTotalInvites update_invite_count
  have hne : ¬ ((u', g) = ((u, g) : Int × Int)) := by
    intro hh
    rw [Prod.mk.injEq] at hh
    exact h hh.1
  rw [lookupD_update_insert_ne hne]

theorem applyCounts_frame (g : Int) :
    ∀ (counts : List (Int × Nat)) (db : DB) (u : Int),
      u ∉ counts.map Prod.fst →
      getTotalInvites (applyCounts g counts db) g u = getTotalInvites db g u
  | [], _, _, _ => rfl
  | (u0, c0) :: rest, db, u, h => by
    rw [List.map_cons, List.mem_cons] at h
    push_neg at h
    rw [applyCounts, List.foldl_cons]
    have ih := applyCounts_frame g rest (update_invite_count g u0 c0 db) u
      (by intro hm; exact h.2 hm)
    rw [applyCounts] at ih
    rw [ih, getTotalInvites_set_ne db g h.1 c0]

/-- Running the `update_invite_count` loop over a dict with distinct keys
sets each listed user's `total_invites` cell to the listed count. -/
theorem applyCounts_sets (g : Int) :
    ∀ (counts : List (Int × Nat)) (db : DB),
      (counts.map Prod.fst).Nodup →
      ∀ (u : Int) (c : Nat), (u, c) ∈ counts →
      getTotalInvites (applyCounts g counts db) g u = c
  | [], _, _, _, _, hm => absurd hm (List.not_mem_nil _)
  | (u0, c0) :: rest, db, hnd, u, c, hm => by
    rw [List.map_cons, List.nodup_cons] at hnd
    rw [applyCounts, List.foldl_cons]
    rcases List.mem_cons.mp hm with heq | hmem
    · obtain ⟨h1, h2⟩ := Prod.mk.inj heq
      subst h1
      subst h2
      have hfr := applyCounts_frame g rest (update_invite_count g u c db) u hnd.1
      rw [applyCounts] at hfr
      rw [hfr]
      exact getTotalInvites_set db g u c
    · have ih := applyCounts_sets g rest (update_invite_count g u0 c0 db)
        hnd.2 u c hmem
      rw [applyCounts] at ih
      exact ih

/-- Effect of `update_invite_counts` on a user who holds at least one
cached invite: the stored `total_invites` becomes the cached count. -/
theorem getTotalInvites_update_counts (g : Int) (perm : Bool)
    (fresh : List Invite) (st : TrackerState) (es : List (String × Invite))
    (u : Int) (hc : st.cache = some es) (hpos : 0 < cachedCount es u) :
    getTotalInvites (update_invite_counts g perm fresh st).db g u
      = cachedCount es u := by
  simp only [update_invite_counts, hc]
  have h1 : lookupCount (inviteCounts es) u = cachedCount es u :=
    inviteCounts_lookup es u
  have hmem : (u, cachedCount es u) ∈ inviteCounts es := by
    rw [← h1]
    exact lookupCount_mem _ _ (by rw [h1]; exact hpos)
  exact applyCounts_sets g (inviteCounts es) st.db (inviteCounts_nodup es)
    u _ hmem

/-- A cached invite `Z` whose inviter is user 5. -/
def invZ : Invite :=
  { code := "Z", inviter := some 5, uses := 0, max_uses := 0, expires_at := none }

/-- Stats row consistent with user 5 currently holding that one invite. -/
def rowZ : StatsRow :=
  { total_invites := 1, total_uses := 0 }

/-- Store recording `total_invites = 1` for user 5 in guild 1. -/
def dbZ : DB :=
  { invites := [], invite_stats := [((5, 1), rowZ)], daily_stats := [] }

/-- Tracker state: guild 1 cached with the single invite `Z`. -/
def stZ : TrackerState :=
  { cache := some [("Z", invZ)], db := dbZ }

/-- C4 counterexample: deleting user 5's only invite empties the cache
(the user's cached-invite count drops to 0), but `update_invite_counts`
iterates only over users that still hold cached invites, so the stored
`total_invites` for user 5 stays at its stale value 1 instead of being
written to 0. -/
theorem update_counts_zero_user_cex :
    (on_invite_delete 1 "Z" true [] stZ).cache = some []
    ∧ cachedCount [] 5 = 0
    ∧ getTotalInvites (on_invite_delete 1 "Z" true [] stZ).db 1 5 = 1 := by
  decide

/-- C4 amended: after `on_invite_delete` and `on_invite_create`, every
user who still holds at least one invite in the server's cache has stored
`total_invites_created` equal to the number of cached invites whose
inviter is that user; users whose cached count has dropped to zero are
not written (they keep their previous stored value), and the final
`cache_invites` resynchronization performed by `on_member_join` never
writes `total_invites_created` at all. -/
theorem invite_counts_snapshot_amended (g : Int) (perm : Bool)
    (fresh : List Invite) (st : TrackerState)
    (entries : List (String × Invite)) (code : String) (inv : Invite)
    (u : Int) :
    (st.cache = some entries → 0 < cachedCount (dictRemove code entries) u →
      getTotalInvites (on_invite_delete g code perm fresh st).db g u
        = cachedCount (dictRemove code entries) u)
    ∧ (0 < cachedCount (dictInsert inv.code inv (st.cache.getD [])) u →
      getTotalInvites (on_invite_create g inv perm fresh st).db g u
        = cachedCount (dictInsert inv.code inv (st.cache.getD [])) u)
    ∧ (cache_invites g perm fresh st).db.invite_stats = st.db.invite_stats := by
  refine ⟨?_, ?_, cache_invites_invite_stats g perm fresh st⟩
  · intro hc hpos
    unfold on_invite_delete
    simp only [hc]
    exact getTotalInvites_update_counts g perm fresh _ _ u rfl hpos
  · intro hpos
    unfold on_invite_create
    exact getTotalInvites_update_counts g perm fresh _ _ u rfl hpos

theorem invite_counts_snapshot_amended_witness :
    getTotalInvites (on_invite_delete 1 "W" true [] stZ).db 1 5
      = cachedCount (dictRemove "W" [("Z", invZ)]) 5
    ∧ getTotalInvites (on_invite_create 1 invZ true [] stZ).db 1 5
      = cachedCount (dictInsert invZ.code invZ (stZ.cache.getD [])) 5
    ∧ (cache_invites 1 true [] stZ).db.invite_stats = stZ.db.invite_stats := by
  obtain ⟨h1, h2, h3⟩ :=
    invite_counts_snapshot_amended 1 true [] stZ [("Z", invZ)] "W" invZ 5
  exact ⟨h1 rfl (by decide), h2 (by decide), h3⟩
